import Mathlib

/-!
# Verification of the graph finalization/execution engine

Shallow embedding of the dataflow-graph compilation and execution engine
(`src/src/graph/detail/ExecutionHelpers.cpp`, `GraphManager`, `Workload`):
graphs of nodes and tensors, backend-driven compilation of nodes into
execution tasks, and the finalize / execute / invalidate lifecycle of the
Graph Manager.  Observable behaviour (accessor calls, allocations,
releases, memory-group acquire/release, task runs and prepares) is
modelled as an event trace; fatal `ARM_COMPUTE_ERROR` conditions are
modelled with `Except`.
-/

namespace ACLGraph

/-- Hardware targets (`arm_compute::graph::Target`). -/
inductive Target where
  | UNSPECIFIED
  | NEON
  | CL
  | GC
deriving DecidableEq

/-- Node type tags.  The engine only discriminates `Input`, `Output` and
`Const`; every other (compute) node type behaves identically in the code
under verification, so they are collapsed into one `Compute` tag. -/
inductive NodeType where
  | Input
  | Output
  | Const
  | Compute
deriving DecidableEq

/-- A graph tensor: its id, assigned target, bound edges (back-references
to producing/consuming nodes), and whether a backend storage handle has
been configured.  `resizable` and `used` model the backend tensor state
read by `allocate_all_tensors` (`is_resizable()` / `is_used()`), whose
implementation lives in the backends. -/
structure Tensor where
  tid : Nat
  target : Target
  boundEdges : List Nat
  hasHandle : Bool
  resizable : Bool
  used : Bool
deriving DecidableEq

/-- A graph node: id, type tag, assigned target and its input/output
tensor slots (a slot holds a tensor id, or `none` for a null tensor). -/
structure Node where
  nid : Nat
  ntype : NodeType
  target : Target
  inputs : List (Option Nat)
  outputs : List (Option Nat)
deriving DecidableEq

/-- A graph: id plus node and tensor containers (entries may be null,
matching the `unique_ptr` containers of `arm_compute::graph::Graph`). -/
structure Graph where
  gid : Nat
  nodes : List (Option Node)
  tensors : List (Option Tensor)
deriving DecidableEq

/-- `Graph::tensor(tid)`: look a tensor up by id (vector indexing). -/
def Graph.tensorOf (g : Graph) (tid : Nat) : Option Tensor :=
  g.tensors.getD tid none

/-- Resolve a node's tensor slot to the tensor it denotes, as
`INode::input/output` do: a null slot or a missing tensor yields a null
pointer. -/
def Graph.resolve (g : Graph) (slot : Option Nat) : Option Nat :=
  match slot with
  | none => none
  | some tid =>
    match g.tensorOf tid with
    | none => none
    | some t => some t.tid

/-- Observable events of the engine. -/
inductive Event where
  | accessor (tid : Nat)
  | allocate (tid : Nat)
  | release (tid : Nat)
  | acquireGroup (t : Target)
  | releaseGroup (t : Target)
  | runTask (nid : Nat)
  | prepareTask (nid : Nat)
deriving DecidableEq

/-- A backend-produced function object (`IFunction`).  Modelled from the
spec: its `prepare()` performs the one-time preparation step when the
function defines one (`hasPrep`) and is a no-op otherwise; the function
bodies themselves are backend code outside this core. -/
structure Func where
  fid : Nat
  hasPrep : Bool
deriving DecidableEq

/-- `ExecutionTask`: one node paired with an optional backend function. -/
structure ExecutionTask where
  task : Option Func
  node : Nat
deriving DecidableEq

/-- `ExecutionTask::prepare`: delegates to the function when present
(`if(task) task->prepare();`); the function itself emits a prepare event
only when it defines preparation behaviour. -/
def ExecutionTask.prepare (t : ExecutionTask) : List Event :=
  match t.task with
  | none => []
  | some f => if f.hasPrep then [Event.prepareTask t.node] else []

/-- Graph context: global configuration plus one memory-manager context
per target; the `Bool` records whether the target's transition
(`cross_group`) memory group is configured (non-null). -/
structure GraphContext where
  useTransitionMM : Bool
  memoryManagers : List (Target × Bool)
deriving DecidableEq

/-- `ExecutionWorkload`: ordered tasks, input/output tensor references
(entries may be null pointers) and the graph id / context it was built
from. -/
structure Workload where
  graphId : Nat
  tasks : List ExecutionTask
  inputs : List (Option Nat)
  outputs : List (Option Nat)
  ctx : GraphContext
deriving DecidableEq

/-- Fatal error conditions (`ARM_COMPUTE_ERROR*` sites). -/
inductive GError where
  | alreadyRegistered
  | notRegistered
  | backendMissing
  | validationFailed
  | handleNotConfigured
  | nullTensor
  | noTasks
deriving DecidableEq

/-- A backend (`IDeviceBackend`): tensor-handle creation, node
validation and node compilation.  These are opaque collaborators of the
engine, modelled as function-valued fields. -/
structure Backend where
  createsHandle : Tensor → Bool
  validateOk : Node → Bool
  configureNode : Node → GraphContext → Option Func

/-- External environment of a finalize run: the backend registry, the
platform default target (`get_default_target`) and the mutating pass
sequence (`PassManager::run_all`), all collaborators outside this core. -/
structure Env where
  registry : Target → Option Backend
  defaultTarget : Target
  passes : Graph → Graph

/-- Modelled from the spec: `is_target_supported` holds when a backend
exists for the target (the helper itself lives in `Utils.cpp`, outside
the provided sources). -/
def isTargetSupported (env : Env) (t : Target) : Bool :=
  (env.registry t).isSome

/-- Effective target resolution of `GraphManager::finalize_graph`:
the requested target if supported, else the platform default. -/
def forcedTarget (env : Env) (t : Target) : Target :=
  if isTargetSupported env t then t else env.defaultTarget

/-- Modelled from the spec: `force_target_to_graph` (in `Utils.cpp`,
outside the provided sources) propagates the effective target to every
node and tensor that has no explicit target. -/
def forceTargetToGraph (g : Graph) (tgt : Target) : Graph :=
  { g with
    nodes := g.nodes.map (Option.map fun n =>
      if n.target = Target.UNSPECIFIED then { n with target := tgt } else n)
    tensors := g.tensors.map (Option.map fun t =>
      if t.target = Target.UNSPECIFIED then { t with target := tgt } else t) }

/-- Body of `configure_all_tensors`: for every non-null tensor, look its
backend up by target (fatal if absent) and install the created handle. -/
def configureTensorList (env : Env) : List (Option Tensor) → Except GError (List (Option Tensor))
  | [] => Except.ok []
  | none :: rest => (configureTensorList env rest).map (fun ts => none :: ts)
  | some t :: rest =>
    match env.registry t.target with
    | none => Except.error GError.backendMissing
    | some b =>
      (configureTensorList env rest).map
        (fun ts => some { t with hasHandle := b.createsHandle t } :: ts)

/-- `detail::configure_all_tensors`. -/
def configure_all_tensors (env : Env) (g : Graph) : Except GError Graph :=
  (configureTensorList env g.tensors).map (fun ts => { g with tensors := ts })

/-- `detail::validate_all_nodes`: every non-null node must have a
backend and pass that backend's validation. -/
def validate_all_nodes (env : Env) : List (Option Node) → Except GError Unit
  | [] => Except.ok ()
  | none :: rest => validate_all_nodes env rest
  | some n :: rest =>
    match env.registry n.target with
    | none => Except.error GError.backendMissing
    | some b =>
      if b.validateOk n then validate_all_nodes env rest
      else Except.error GError.validationFailed

/-- Task-creation loop of `configure_all_nodes`: each non-null node is
compiled by its backend; a non-null function yields one task, in
node-container order. -/
def buildTasks (env : Env) (ctx : GraphContext) : List (Option Node) → Except GError (List ExecutionTask)
  | [] => Except.ok []
  | none :: rest => buildTasks env ctx rest
  | some n :: rest =>
    match env.registry n.target with
    | none => Except.error GError.backendMissing
    | some b =>
      match b.configureNode n ctx with
      | none => buildTasks env ctx rest
      | some f =>
        (buildTasks env ctx rest).map (fun ts => { task := some f, node := n.nid } :: ts)

/-- Input-collection loop of `configure_all_nodes`: every `Input` node
pushes its sole output tensor, in encounter order. -/
def workloadInputs (g : Graph) (ns : List (Option Node)) : List (Option Nat) :=
  ns.filterMap (fun onode =>
    match onode with
    | some n =>
      if n.ntype = NodeType.Input then some (g.resolve (n.outputs.getD 0 none)) else none
    | none => none)

/-- Output-collection loop of `configure_all_nodes`: every `Output` node
pushes its sole input tensor, in encounter order. -/
def workloadOutputs (g : Graph) (ns : List (Option Node)) : List (Option Nat) :=
  ns.filterMap (fun onode =>
    match onode with
    | some n =>
      if n.ntype = NodeType.Output then some (g.resolve (n.inputs.getD 0 none)) else none
    | none => none)

/-- `detail::configure_all_nodes`. -/
def configure_all_nodes (env : Env) (g : Graph) (ctx : GraphContext) : Except GError Workload :=
  (buildTasks env ctx g.nodes).bind (fun ts =>
    Except.ok
      { graphId := g.gid
        tasks := ts
        inputs := workloadInputs g g.nodes
        outputs := workloadOutputs g g.nodes
        ctx := ctx })

/-- One slot of `allocate_all_input_tensors` / `allocate_all_output_tensors`:
a non-null tensor with a non-empty bound-edge set must have a configured
handle (fatal otherwise) and is allocated. -/
def allocSlot (g : Graph) (s : Option Nat) : Except GError (List Event) :=
  match Option.bind s g.tensorOf with
  | none => Except.ok []
  | some t =>
    if t.boundEdges.isEmpty then Except.ok []
    else if t.hasHandle then Except.ok [Event.allocate t.tid]
    else Except.error GError.handleNotConfigured

/-- Allocate every tensor slot in a list, in order. -/
def allocSlots (g : Graph) : List (Option Nat) → Except GError (List Event)
  | [] => Except.ok []
  | s :: rest =>
    (allocSlot g s).bind (fun e =>
      (allocSlots g rest).bind (fun es => Except.ok (e ++ es)))

/-- Per-node dispatch of `allocate_const_tensors`: `Const`/`Input` nodes
allocate their output tensors, `Output` nodes their input tensors
(falling through to the default afterwards), everything else nothing. -/
def constAllocNode (g : Graph) (n : Node) : Except GError (List Event) :=
  match n.ntype with
  | NodeType.Const => allocSlots g n.outputs
  | NodeType.Input => allocSlots g n.outputs
  | NodeType.Output => allocSlots g n.inputs
  | NodeType.Compute => Except.ok []

/-- Node loop of `allocate_const_tensors`. -/
def constAllocLoop (g : Graph) : List (Option Node) → Except GError (List Event)
  | [] => Except.ok []
  | none :: rest => constAllocLoop g rest
  | some n :: rest =>
    (constAllocNode g n).bind (fun e =>
      (constAllocLoop g rest).bind (fun es => Except.ok (e ++ es)))

/-- `detail::allocate_const_tensors`. -/
def allocate_const_tensors (g : Graph) : Except GError (List Event) :=
  constAllocLoop g g.nodes

/-- `detail::allocate_all_tensors`: allocate every non-null tensor with a
non-empty bound-edge set, a configured handle, resizable and in use. -/
def allocate_all_tensors (g : Graph) : List Event :=
  g.tensors.filterMap (fun ot =>
    match ot with
    | some t =>
      if !t.boundEdges.isEmpty && t.hasHandle && t.resizable && t.used then
        some (Event.allocate t.tid)
      else none
    | none => none)

/-- `detail::release_unused_tensors`: for every non-null tensor with a
handle, `release_if_unused` is invoked.  Modelled from the spec: the
handle's `release_if_unused` (backend code outside the provided sources)
releases the storage when the tensor's bound-edge set is empty. -/
def release_unused_tensors (g : Graph) : List Event :=
  g.tensors.filterMap (fun ot =>
    match ot with
    | some t =>
      if t.hasHandle && t.boundEdges.isEmpty then some (Event.release t.tid) else none
    | none => none)

/-- Node loop of `call_all_const_node_accessors`: for every `Const` node,
`call_tensor_accessor(node->output(0))`, which is fatal on a null tensor
and otherwise invokes the tensor's accessor. -/
def constAccessorLoop (g : Graph) : List (Option Node) → Except GError (List Event)
  | [] => Except.ok []
  | none :: rest => constAccessorLoop g rest
  | some n :: rest =>
    if n.ntype = NodeType.Const then
      (match g.resolve (n.outputs.getD 0 none) with
       | none => Except.error GError.nullTensor
       | some tid => Except.ok [Event.accessor tid]).bind
        (fun e => (constAccessorLoop g rest).bind (fun es => Except.ok (e ++ es)))
    else constAccessorLoop g rest

/-- `detail::call_all_const_node_accessors`. -/
def call_all_const_node_accessors (g : Graph) : Except GError (List Event) :=
  constAccessorLoop g g.nodes

/-- `detail::call_all_input_node_accessors`: invoke the accessor of every
non-null workload input tensor, in order. -/
def call_all_input_node_accessors (w : Workload) : List Event :=
  w.inputs.filterMap (fun s => s.map Event.accessor)

/-- `detail::call_all_output_node_accessors`: invoke the accessor of
every non-null workload output tensor, in order. -/
def call_all_output_node_accessors (w : Workload) : List Event :=
  w.outputs.filterMap (fun s => s.map Event.accessor)

/-- Acquire phase of `call_all_tasks`: acquire the transition memory
group of every memory-manager context whose `cross_group` is configured. -/
def groupAcquires (ctx : GraphContext) : List Event :=
  ctx.memoryManagers.filterMap (fun p =>
    if p.2 then some (Event.acquireGroup p.1) else none)

/-- Release phase of `call_all_tasks`. -/
def groupReleases (ctx : GraphContext) : List Event :=
  ctx.memoryManagers.filterMap (fun p =>
    if p.2 then some (Event.releaseGroup p.1) else none)

/-- Task loop of `call_all_tasks`: each task is invoked through the Task
Executor (`execute_task`), which runs the underlying function when it is
non-null. -/
def taskRuns (ts : List ExecutionTask) : List Event :=
  ts.filterMap (fun t => t.task.map (fun _ => Event.runTask t.node))

/-- `detail::call_all_tasks`: acquire every configured transition memory
group, run every task in workload order, release every group. -/
def call_all_tasks (w : Workload) : List Event :=
  groupAcquires w.ctx ++ taskRuns w.tasks ++ groupReleases w.ctx

/-- Task loop of `prepare_all_tasks`: each task's `prepare()` followed by
`release_unused_tensors` on the workload's graph. -/
def prepareLoop (g : Graph) : List ExecutionTask → List Event
  | [] => []
  | t :: rest => t.prepare ++ release_unused_tensors g ++ prepareLoop g rest

/-- `detail::prepare_all_tasks`. -/
def prepare_all_tasks (g : Graph) (w : Workload) : List Event :=
  prepareLoop g w.tasks

/-- Graph Manager state: the id-to-workload table, the only persistent
state (`std::map<GraphID, ExecutionWorkload>` as a partial map). -/
structure GraphManager where
  workloads : Nat → Option Workload

/-- `GraphManager::execute_graph`: fatal when the id is not registered;
otherwise input accessors, then `call_all_tasks`, then output accessors. -/
def execute_graph (mgr : GraphManager) (g : Graph) : Except GError (List Event) :=
  match mgr.workloads g.gid with
  | none => Except.error GError.notRegistered
  | some w =>
    Except.ok (call_all_input_node_accessors w ++ call_all_tasks w ++
      call_all_output_node_accessors w)

/-- The manager state after erasing one table entry. -/
def eraseWorkload (mgr : GraphManager) (gid : Nat) : GraphManager :=
  ⟨fun k => if k = gid then none else mgr.workloads k⟩

/-- `GraphManager::invalidate_graph`: fatal when the id is not
registered; otherwise erase the table entry. -/
def invalidate_graph (mgr : GraphManager) (g : Graph) : Except GError GraphManager :=
  match mgr.workloads g.gid with
  | none => Except.error GError.notRegistered
  | some _ => Except.ok (eraseWorkload mgr g.gid)

/-- Steps 9-13 of finalization, after node compilation and the
const-tensor work: prepare all tasks on the CL target, set up tensor
memory (delegated to the external transition planner when enabled, else
`allocate_all_tensors`), seal the context, register the workload under
the graph id, and on non-CL targets run the graph once and release
now-unused tensors. -/
def finalizeFinish (env : Env) (mgr : GraphManager) (g : Graph) (ctx : GraphContext)
    (tgt : Target) (g3 : Graph) (w : Workload) (evA evC : List Event) :
    Except GError (GraphManager × List Event) :=
  let forced := forcedTarget env tgt
  let evP := if forced = Target.CL then prepare_all_tasks g3 w else []
  let evM := if ctx.useTransitionMM then [] else allocate_all_tensors g3
  let mgr1 : GraphManager := ⟨fun k => if k = g.gid then some w else mgr.workloads k⟩
  if forced = Target.CL then
    Except.ok (mgr1, evA ++ evC ++ evP ++ evM)
  else
    (execute_graph mgr1 g).map
      (fun evX => (mgr1, evA ++ evC ++ evP ++ evM ++ evX ++ release_unused_tensors g3))

/-- `GraphManager::finalize_graph` after the duplicate-registration
check: force the effective target, configure tensors, run the passes,
validate, compile nodes into a workload (fatal when no task results),
allocate const/input/output-adjacent tensors, call const accessors, then
`finalizeFinish`. -/
def finalizeBody (env : Env) (mgr : GraphManager) (g : Graph) (ctx : GraphContext)
    (tgt : Target) : Except GError (GraphManager × List Event) :=
  (configure_all_tensors env (forceTargetToGraph g (forcedTarget env tgt))).bind (fun g2 =>
    (validate_all_nodes env (env.passes g2).nodes).bind (fun _ =>
      (configure_all_nodes env (env.passes g2) ctx).bind (fun w =>
        if w.tasks.isEmpty then Except.error GError.noTasks
        else
          (allocate_const_tensors (env.passes g2)).bind (fun evA =>
            (call_all_const_node_accessors (env.passes g2)).bind (fun evC =>
              finalizeFinish env mgr g ctx tgt (env.passes g2) w evA evC)))))

/-- `GraphManager::finalize_graph`: fatal when the graph id is already
registered, else the finalization pipeline. -/
def finalize_graph (env : Env) (mgr : GraphManager) (g : Graph) (ctx : GraphContext)
    (tgt : Target) : Except GError (GraphManager × List Event) :=
  match mgr.workloads g.gid with
  | some _ => Except.error GError.alreadyRegistered
  | none => finalizeBody env mgr g ctx tgt

/-! ## Declarative (spec-side) formulations, for refinement statements -/

/-- Does a node yield a task, i.e. is it non-null and does its backend's
`configure_node` return a non-null function? -/
def nodeYieldsTask (env : Env) (ctx : GraphContext) (onode : Option Node) : Bool :=
  (onode.bind (fun n => (env.registry n.target).bind (fun b => b.configureNode n ctx))).isSome

/-- Spec-side task list: exactly one task per node whose backend
configure returned a non-null function, in node-container order. -/
def specTasks (env : Env) (ctx : GraphContext) (ns : List (Option Node)) : List ExecutionTask :=
  ns.filterMap (fun onode => onode.bind (fun n =>
    ((env.registry n.target).bind (fun b => b.configureNode n ctx)).map
      (fun f => { task := some f, node := n.nid })))

/-- Spec-side input list: the `Input` nodes in encounter order, each
mapped to its sole output tensor. -/
def specInputs (g : Graph) (ns : List (Option Node)) : List (Option Nat) :=
  (ns.filterMap (fun onode => onode.bind (fun n =>
    if n.ntype = NodeType.Input then some n else none))).map
    (fun n => g.resolve (n.outputs.getD 0 none))

/-- Spec-side output list: the `Output` nodes in encounter order, each
mapped to its sole input tensor. -/
def specOutputs (g : Graph) (ns : List (Option Node)) : List (Option Nat) :=
  (ns.filterMap (fun onode => onode.bind (fun n =>
    if n.ntype = NodeType.Output then some n else none))).map
    (fun n => g.resolve (n.inputs.getD 0 none))

/-- The tensor slots that `allocate_const_tensors` visits for one node. -/
def constAllocSlotsOf (n : Node) : List (Option Nat) :=
  match n.ntype with
  | NodeType.Const => n.outputs
  | NodeType.Input => n.outputs
  | NodeType.Output => n.inputs
  | NodeType.Compute => []

/-- The tensor ids belonging to `Const` and `Input` nodes (their output
slots), used to state what the const-allocation step may touch. -/
def constInputTensorIds (g : Graph) : List Nat :=
  g.nodes.filterMap (fun onode => onode.bind (fun n =>
    match n.ntype with
    | NodeType.Const => some n.outputs
    | NodeType.Input => some n.outputs
    | _ => none))
  |>.flatten.filterMap id

/-- The tensor-memory setup segment of finalization (step 10): empty
when the external transition-memory planner is delegated to, otherwise
the events of `allocate_all_tensors`. -/
def mmSetupEvents (ctx : GraphContext) (g : Graph) : List Event :=
  if ctx.useTransitionMM then [] else allocate_all_tensors g

/-- Is an event a task run? -/
def isRunTask : Event → Bool
  | Event.runTask _ => true
  | _ => false

/-- Is an event an accessor invocation? -/
def isAccessor : Event → Bool
  | Event.accessor _ => true
  | _ => false

/-- Does a task's function define preparation behaviour? -/
def hasPrepBehavior (t : ExecutionTask) : Bool :=
  match t.task with
  | none => false
  | some f => f.hasPrep

/-- Spec-side allocation events for a list of tensor slots: each
non-null tensor with a non-empty bound-edge set is allocated, in slot
order. -/
def specSlotEvents (g : Graph) (ss : List (Option Nat)) : List Event :=
  ss.filterMap (fun s =>
    match Option.bind s g.tensorOf with
    | some t => if t.boundEdges.isEmpty then none else some (Event.allocate t.tid)
    | none => none)

/-- Spec-side allocation events of the const-allocation step: walking
the nodes in order, `Const`/`Input` nodes contribute their output
tensors and `Output` nodes their input tensors, each allocated when
non-null with a non-empty bound-edge set. -/
def specConstAllocEvents (g : Graph) : List Event :=
  (g.nodes.map (fun onode =>
    match onode with
    | some n => specSlotEvents g (constAllocSlotsOf n)
    | none => [])).flatten

/-- Spec-side accessor events of the const-accessor step: one accessor
invocation per `Const` node's sole output tensor, in encounter order. -/
def specConstAccessorEvents (g : Graph) : List Event :=
  g.nodes.filterMap (fun onode => onode.bind (fun n =>
    if n.ntype = NodeType.Const then
      (g.resolve (n.outputs.getD 0 none)).map Event.accessor
    else none))

/-- The tensor ids that are `Const` nodes' sole outputs. -/
def constOutputTensorIds (g : Graph) : List Nat :=
  g.nodes.filterMap (fun onode => onode.bind (fun n =>
    if n.ntype = NodeType.Const then g.resolve (n.outputs.getD 0 none) else none))

/-- The spec-side per-task trace of the preparation pass: each task's
`prepare()` followed by one `release_unused_tensors` sweep. -/
def specPrepareEvents (g : Graph) (ts : List ExecutionTask) : List Event :=
  (ts.map (fun t => t.prepare ++ release_unused_tensors g)).flatten

/-! ## Concrete fixtures -/

/-- A backend whose validation always passes, whose tensor handles are
always created, and whose `configure_node` yields a function exactly for
compute nodes. -/
def backend1 : Backend :=
  { createsHandle := fun _ => true
    validateOk := fun _ => true
    configureNode := fun n _ => if n.ntype = NodeType.Compute then some ⟨n.nid, true⟩ else none }

/-- A registry with `backend1` behind the CL target only. -/
def envCL : Env :=
  { registry := fun t => if t = Target.CL then some backend1 else none
    defaultTarget := Target.CL
    passes := id }

/-- A registry with `backend1` behind the NEON target only. -/
def envNEON : Env :=
  { registry := fun t => if t = Target.NEON then some backend1 else none
    defaultTarget := Target.NEON
    passes := id }

/-- Graph `Input(n0) -> Compute(n1) -> Output(n2)` over tensors `t0, t1`. -/
def graph1 : Graph :=
  { gid := 0
    nodes :=
      [ some { nid := 0, ntype := NodeType.Input, target := Target.UNSPECIFIED,
               inputs := [], outputs := [some 0] }
      , some { nid := 1, ntype := NodeType.Compute, target := Target.UNSPECIFIED,
               inputs := [some 0], outputs := [some 1] }
      , some { nid := 2, ntype := NodeType.Output, target := Target.UNSPECIFIED,
               inputs := [some 1], outputs := [] } ]
    tensors :=
      [ some { tid := 0, target := Target.UNSPECIFIED, boundEdges := [0, 1],
               hasHandle := false, resizable := true, used := true }
      , some { tid := 1, target := Target.UNSPECIFIED, boundEdges := [1, 2],
               hasHandle := false, resizable := true, used := true } ] }

/-- A context without transition-memory sharing and one CL memory
manager whose transition group is configured. -/
def ctx1 : GraphContext := { useTransitionMM := false, memoryManagers := [(Target.CL, true)] }

/-- The empty Graph Manager. -/
def mgr0 : GraphManager := ⟨fun _ => none⟩

/-- A default workload, used only to give `Option.getD` a fallback. -/
def wDefault : Workload := { graphId := 0, tasks := [], inputs := [], outputs := [], ctx := ⟨false, []⟩ }

/-- A zero-task workload with one input and one output tensor. -/
def wZ : Workload := { graphId := 0, tasks := [], inputs := [some 0], outputs := [some 1], ctx := ctx1 }

/-- A manager holding the zero-task workload `wZ` under id 0. -/
def mgrZ : GraphManager := ⟨fun k => if k = 0 then some wZ else none⟩

/-- The result of finalizing `graph1` on the CL target. -/
def finCL : Except GError (GraphManager × List Event) :=
  finalize_graph envCL mgr0 graph1 ctx1 Target.CL

/-- The manager produced by `finCL`. -/
def mgrA : GraphManager :=
  match finCL with
  | Except.ok p => p.1
  | Except.error _ => mgr0

/-- The event trace produced by `finCL`. -/
def evFinA : List Event :=
  match finCL with
  | Except.ok p => p.2
  | Except.error _ => []

/-- The workload registered by `finCL` under id 0. -/
def wA : Workload := (mgrA.workloads 0).getD wDefault

/-- `graph1` with backend handles already configured on its tensors, as
they are after `configure_all_tensors`. -/
def graph1H : Graph :=
  { gid := 0
    nodes := graph1.nodes
    tensors :=
      [ some { tid := 0, target := Target.CL, boundEdges := [0, 1],
               hasHandle := true, resizable := true, used := true }
      , some { tid := 1, target := Target.CL, boundEdges := [1, 2],
               hasHandle := true, resizable := true, used := true } ] }

/-- Graph with a constant tensor `t0` consumed directly by an `Output`
node, next to an `Input -> Compute` chain that yields one task:
`Const(n0) -> Output(n3)` and `Input(n1) -> Compute(n2)`. -/
def graph9 : Graph :=
  { gid := 3
    nodes :=
      [ some { nid := 0, ntype := NodeType.Const, target := Target.UNSPECIFIED,
               inputs := [], outputs := [some 0] }
      , some { nid := 1, ntype := NodeType.Input, target := Target.UNSPECIFIED,
               inputs := [], outputs := [some 1] }
      , some { nid := 2, ntype := NodeType.Compute, target := Target.UNSPECIFIED,
               inputs := [some 1], outputs := [some 2] }
      , some { nid := 3, ntype := NodeType.Output, target := Target.UNSPECIFIED,
               inputs := [some 0], outputs := [] } ]
    tensors :=
      [ some { tid := 0, target := Target.UNSPECIFIED, boundEdges := [0, 3],
               hasHandle := false, resizable := true, used := true }
      , some { tid := 1, target := Target.UNSPECIFIED, boundEdges := [1, 2],
               hasHandle := false, resizable := true, used := true }
      , some { tid := 2, target := Target.UNSPECIFIED, boundEdges := [2],
               hasHandle := false, resizable := true, used := true } ] }

/-- The result of finalizing `graph9` on the CL target. -/
def fin9 : Except GError (GraphManager × List Event) :=
  finalize_graph envCL mgr0 graph9 ctx1 Target.CL

/-- The manager produced by `fin9`. -/
def mgr9 : GraphManager :=
  match fin9 with
  | Except.ok p => p.1
  | Except.error _ => mgr0

/-- The finalize-time event trace produced by `fin9`. -/
def ev9 : List Event :=
  match fin9 with
  | Except.ok p => p.2
  | Except.error _ => []

/-- The event trace of executing `graph9` after `fin9`. -/
def tr9 : List Event :=
  match execute_graph mgr9 graph9 with
  | Except.ok t => t
  | Except.error _ => []

/-- The result of finalizing `graph1` on the NEON target. -/
def finN : Except GError (GraphManager × List Event) :=
  finalize_graph envNEON mgr0 graph1 ctx1 Target.NEON

/-- The manager produced by `finN`. -/
def mgrN : GraphManager :=
  match finN with
  | Except.ok p => p.1
  | Except.error _ => mgr0

/-- The event trace produced by `finN`. -/
def evN : List Event :=
  match finN with
  | Except.ok p => p.2
  | Except.error _ => []

/-- `graph1` after forcing the CL target, as finalize does. -/
def graphF : Graph := forceTargetToGraph graph1 Target.CL

/-- The workload compiled from `graphF`. -/
def wF : Workload :=
  match configure_all_nodes envCL graphF ctx1 with
  | Except.ok w => w
  | Except.error _ => wDefault

/-- A backend that validates and creates handles but compiles no node to
a function (every node is purely structural for it). -/
def backendNoTask : Backend :=
  { createsHandle := fun _ => true
    validateOk := fun _ => true
    configureNode := fun _ _ => none }

/-- A registry with `backendNoTask` behind the CL target only. -/
def envNoTask : Env :=
  { registry := fun t => if t = Target.CL then some backendNoTask else none
    defaultTarget := Target.CL
    passes := id }

/-- `graph1` with handles configured by `backendNoTask`'s registry. -/
def g2c : Graph :=
  match configure_all_tensors envNoTask (forceTargetToGraph graph1 (forcedTarget envNoTask Target.CL)) with
  | Except.ok g => g
  | Except.error _ => graph1

/-- The (task-free) workload compiled from `g2c` by `envNoTask`. -/
def wc : Workload :=
  match configure_all_nodes envNoTask (envNoTask.passes g2c) ctx1 with
  | Except.ok w => w
  | Except.error _ => wDefault

/-- `graph1` with tensors configured for the NEON run. -/
def g2N : Graph :=
  match configure_all_tensors envNEON (forceTargetToGraph graph1 (forcedTarget envNEON Target.NEON)) with
  | Except.ok g => g
  | Except.error _ => graph1

/-- The workload compiled from `g2N` by `envNEON`. -/
def wN : Workload :=
  match configure_all_nodes envNEON (envNEON.passes g2N) ctx1 with
  | Except.ok w => w
  | Except.error _ => wDefault

/-- The const-allocation events of the NEON run. -/
def evAN : List Event :=
  match allocate_const_tensors (envNEON.passes g2N) with
  | Except.ok e => e
  | Except.error _ => []

/-- The const-accessor events of the NEON run. -/
def evCN : List Event :=
  match call_all_const_node_accessors (envNEON.passes g2N) with
  | Except.ok e => e
  | Except.error _ => []

/-- `graph9` with tensors configured for the CL run. -/
def g29 : Graph :=
  match configure_all_tensors envCL (forceTargetToGraph graph9 (forcedTarget envCL Target.CL)) with
  | Except.ok g => g
  | Except.error _ => graph9

/-- The workload compiled from `g29` by `envCL`. -/
def w9 : Workload :=
  match configure_all_nodes envCL (envCL.passes g29) ctx1 with
  | Except.ok w => w
  | Except.error _ => wDefault

/-- The const-allocation events of the `graph9` run. -/
def evA9 : List Event :=
  match allocate_const_tensors (envCL.passes g29) with
  | Except.ok e => e
  | Except.error _ => []

/-- The const-accessor events of the `graph9` run. -/
def evC9 : List Event :=
  match call_all_const_node_accessors (envCL.passes g29) with
  | Except.ok e => e
  | Except.error _ => []

/-- `graph1` with tensors configured for the CL run. -/
def g2A : Graph :=
  match configure_all_tensors envCL (forceTargetToGraph graph1 (forcedTarget envCL Target.CL)) with
  | Except.ok g => g
  | Except.error _ => graph1

/-- The const-allocation events of the CL run of `graph1`. -/
def evAA : List Event :=
  match allocate_const_tensors (envCL.passes g2A) with
  | Except.ok e => e
  | Except.error _ => []

/-- The const-accessor events of the CL run of `graph1`. -/
def evCA : List Event :=
  match call_all_const_node_accessors (envCL.passes g2A) with
  | Except.ok e => e
  | Except.error _ => []

/-! ## Helper lemmas -/

theorem not_runTask_mem_inputAcc (w : Workload) (nid : Nat) :
    Event.runTask nid ∉ call_all_input_node_accessors w := by
  simp only [call_all_input_node_accessors, List.mem_filterMap, not_exists, not_and]
  intro s _ hs
  cases s <;> simp at hs

theorem not_runTask_mem_outputAcc (w : Workload) (nid : Nat) :
    Event.runTask nid ∉ call_all_output_node_accessors w := by
  simp only [call_all_output_node_accessors, List.mem_filterMap, not_exists, not_and]
  intro s _ hs
  cases s <;> simp at hs

theorem not_runTask_mem_groupAcquires (ctx : GraphContext) (nid : Nat) :
    Event.runTask nid ∉ groupAcquires ctx := by
  simp only [groupAcquires, List.mem_filterMap, not_exists, not_and]
  intro p _ hp
  split at hp <;> simp at hp

theorem not_runTask_mem_groupReleases (ctx : GraphContext) (nid : Nat) :
    Event.runTask nid ∉ groupReleases ctx := by
  simp only [groupReleases, List.mem_filterMap, not_exists, not_and]
  intro p _ hp
  split at hp <;> simp at hp

theorem buildTasks_eq_specTasks (env : Env) (ctx : GraphContext) :
    ∀ {ns : List (Option Node)} {ts : List ExecutionTask},
      buildTasks env ctx ns = Except.ok ts → ts = specTasks env ctx ns := by
  intro ns
  induction ns with
  | nil =>
    intro ts h
    simp only [buildTasks, Except.ok.injEq] at h
    simp [specTasks, ← h]
  | cons hd tl ih =>
    intro ts h
    cases hd with
    | none =>
      simp only [buildTasks] at h
      simpa [specTasks, List.filterMap_cons] using ih h
    | some n =>
      cases hreg : env.registry n.target with
      | none => simp [buildTasks, hreg] at h
      | some b =>
        cases hcfg : b.configureNode n ctx with
        | none =>
          simp only [buildTasks, hreg, hcfg] at h
          simpa [specTasks, List.filterMap_cons, hreg, hcfg] using ih h
        | some f =>
          simp only [buildTasks, hreg, hcfg] at h
          cases hrest : buildTasks env ctx tl with
          | error e => rw [hrest] at h; simp [Except.map] at h
          | ok ts2 =>
            rw [hrest] at h
            simp only [Except.map, Except.ok.injEq] at h
            subst h
            simp [specTasks, List.filterMap_cons, hreg, hcfg]
            simpa [specTasks] using ih hrest

theorem specTasks_length (env : Env) (ctx : GraphContext) (ns : List (Option Node)) :
    (specTasks env ctx ns).length = ns.countP (nodeYieldsTask env ctx) := by
  induction ns with
  | nil => rfl
  | cons hd tl ih =>
    cases hd with
    | none => simpa [specTasks, List.filterMap_cons, List.countP_cons, nodeYieldsTask] using ih
    | some n =>
      cases hreg : env.registry n.target with
      | none =>
        simpa [specTasks, List.filterMap_cons, List.countP_cons, nodeYieldsTask, hreg] using ih
      | some b =>
        cases hcfg : b.configureNode n ctx with
        | none =>
          simpa [specTasks, List.filterMap_cons, List.countP_cons,
            nodeYieldsTask, hreg, hcfg] using ih
        | some f =>
          simpa [specTasks, List.filterMap_cons, List.countP_cons,
            nodeYieldsTask, hreg, hcfg] using ih

theorem configure_all_nodes_ok {env : Env} {g : Graph} {ctx : GraphContext} {w : Workload}
    (h : configure_all_nodes env g ctx = Except.ok w) :
    buildTasks env ctx g.nodes = Except.ok w.tasks ∧
    w.inputs = workloadInputs g g.nodes ∧ w.outputs = workloadOutputs g g.nodes ∧
    w.graphId = g.gid ∧ w.ctx = ctx := by
  unfold configure_all_nodes at h
  cases hb : buildTasks env ctx g.nodes with
  | error e => rw [hb] at h; simp [Except.bind] at h
  | ok ts =>
    rw [hb] at h
    simp only [Except.bind, Except.ok.injEq] at h
    subst h
    exact ⟨rfl, rfl, rfl, rfl, rfl⟩

theorem workloadInputs_eq_specInputs (g : Graph) (ns : List (Option Node)) :
    workloadInputs g ns = specInputs g ns := by
  induction ns with
  | nil => rfl
  | cons hd tl ih =>
    cases hd with
    | none => simpa [workloadInputs, specInputs, List.filterMap_cons] using ih
    | some n =>
      by_cases ht : n.ntype = NodeType.Input
      · simpa [workloadInputs, specInputs, List.filterMap_cons, ht] using ih
      · simpa [workloadInputs, specInputs, List.filterMap_cons, ht] using ih

theorem workloadOutputs_eq_specOutputs (g : Graph) (ns : List (Option Node)) :
    workloadOutputs g ns = specOutputs g ns := by
  induction ns with
  | nil => rfl
  | cons hd tl ih =>
    cases hd with
    | none => simpa [workloadOutputs, specOutputs, List.filterMap_cons] using ih
    | some n =>
      by_cases ht : n.ntype = NodeType.Output
      · simpa [workloadOutputs, specOutputs, List.filterMap_cons, ht] using ih
      · simpa [workloadOutputs, specOutputs, List.filterMap_cons, ht] using ih

theorem Except_bind_ok {α β : Type} {e : Except GError α} {f : α → Except GError β} {v : β}
    (h : e.bind f = Except.ok v) : ∃ a, e = Except.ok a ∧ f a = Except.ok v := by
  cases e with
  | error ee => simp [Except.bind] at h
  | ok a => exact ⟨a, rfl, by simpa [Except.bind] using h⟩

theorem finalizeFinish_ok {env : Env} {mgr : GraphManager} {g : Graph} {ctx : GraphContext}
    {tgt : Target} {g3 : Graph} {w : Workload} {evA evC : List Event}
    {mgr1 : GraphManager} {ev : List Event}
    (h : finalizeFinish env mgr g ctx tgt g3 w evA evC = Except.ok (mgr1, ev)) :
    mgr1 = GraphManager.mk (fun k => if k = g.gid then some w else mgr.workloads k) ∧
    ev = evA ++ evC ++
      (if forcedTarget env tgt = Target.CL then prepare_all_tasks g3 w else []) ++
      (if ctx.useTransitionMM then [] else allocate_all_tensors g3) ++
      (if forcedTarget env tgt = Target.CL then []
       else (call_all_input_node_accessors w ++ call_all_tasks w ++
             call_all_output_node_accessors w) ++ release_unused_tensors g3) := by
  by_cases hcl : forcedTarget env tgt = Target.CL
  · simp only [finalizeFinish, hcl, if_true, Except.ok.injEq, Prod.mk.injEq] at h
    refine ⟨h.1.symm, ?_⟩
    simp [hcl, ← h.2]
  · simp only [finalizeFinish, hcl, if_false, execute_graph, Except.map, if_pos,
      Except.ok.injEq, Prod.mk.injEq, ite_false] at h
    refine ⟨h.1.symm, ?_⟩
    simp [hcl, ← h.2, List.append_assoc]

theorem allocSlot_ok {g : Graph} {s : Option Nat} {evs : List Event}
    (h : allocSlot g s = Except.ok evs) : evs = specSlotEvents g [s] := by
  cases hx : Option.bind s g.tensorOf with
  | none =>
    simp only [allocSlot, hx, Except.ok.injEq] at h
    subst h
    simp [specSlotEvents, hx]
  | some t =>
    by_cases hb : t.boundEdges = []
    · simp [allocSlot, hx, hb] at h
      subst h
      simp [specSlotEvents, hx, hb]
    · by_cases hh : t.hasHandle
      · simp [allocSlot, hx, hb, hh] at h
        subst h
        simp [specSlotEvents, hx, hb]
      · simp [allocSlot, hx, hb, hh] at h

theorem allocSlots_ok {g : Graph} :
    ∀ {ss : List (Option Nat)} {evs : List Event},
      allocSlots g ss = Except.ok evs → evs = specSlotEvents g ss := by
  intro ss
  induction ss with
  | nil =>
    intro evs h
    simp only [allocSlots, Except.ok.injEq] at h
    subst h; rfl
  | cons s rest ih =>
    intro evs h
    simp only [allocSlots] at h
    obtain ⟨e, he, h⟩ := Except_bind_ok h
    obtain ⟨es, hes, h⟩ := Except_bind_ok h
    simp only [Except.ok.injEq] at h
    subst h
    rw [allocSlot_ok he, ih hes]
    cases hx : Option.bind s g.tensorOf with
    | none => simp [specSlotEvents, List.filterMap_cons, hx]
    | some t =>
      by_cases hb : t.boundEdges = [] <;>
        simp [specSlotEvents, List.filterMap_cons, hx, hb]

theorem constAllocNode_ok {g : Graph} {n : Node} {evs : List Event}
    (h : constAllocNode g n = Except.ok evs) :
    evs = specSlotEvents g (constAllocSlotsOf n) := by
  cases hnt : n.ntype with
  | Const =>
    simp only [constAllocNode, hnt] at h
    simpa [constAllocSlotsOf, hnt] using allocSlots_ok h
  | Input =>
    simp only [constAllocNode, hnt] at h
    simpa [constAllocSlotsOf, hnt] using allocSlots_ok h
  | Output =>
    simp only [constAllocNode, hnt] at h
    simpa [constAllocSlotsOf, hnt] using allocSlots_ok h
  | Compute =>
    simp only [constAllocNode, hnt, Except.ok.injEq] at h
    subst h
    simp [constAllocSlotsOf, hnt, specSlotEvents]

theorem constAllocLoop_ok {g : Graph} :
    ∀ {ns : List (Option Node)} {evs : List Event},
      constAllocLoop g ns = Except.ok evs →
      evs = (ns.map (fun onode =>
        match onode with
        | some n => specSlotEvents g (constAllocSlotsOf n)
        | none => [])).flatten := by
  intro ns
  induction ns with
  | nil =>
    intro evs h
    simp only [constAllocLoop, Except.ok.injEq] at h
    subst h; rfl
  | cons hd rest ih =>
    intro evs h
    cases hd with
    | none =>
      simp only [constAllocLoop] at h
      simpa using ih h
    | some n =>
      simp only [constAllocLoop] at h
      obtain ⟨e, he, h⟩ := Except_bind_ok h
      obtain ⟨es, hes, h⟩ := Except_bind_ok h
      simp only [Except.ok.injEq] at h
      subst h
      simp [List.flatten_cons, constAllocNode_ok he, ih hes]

theorem allocate_const_tensors_ok {g : Graph} {evs : List Event}
    (h : allocate_const_tensors g = Except.ok evs) : evs = specConstAllocEvents g := by
  simpa [specConstAllocEvents] using constAllocLoop_ok h

theorem constAccessorLoop_ok {g : Graph} :
    ∀ {ns : List (Option Node)} {evs : List Event},
      constAccessorLoop g ns = Except.ok evs →
      evs = ns.filterMap (fun onode => onode.bind (fun n =>
        if n.ntype = NodeType.Const then
          (g.resolve (n.outputs.getD 0 none)).map Event.accessor
        else none)) := by
  intro ns
  induction ns with
  | nil =>
    intro evs h
    simp only [constAccessorLoop, Except.ok.injEq] at h
    subst h; rfl
  | cons hd rest ih =>
    intro evs h
    cases hd with
    | none =>
      simp only [constAccessorLoop] at h
      simpa [List.filterMap_cons] using ih h
    | some n =>
      by_cases hc : n.ntype = NodeType.Const
      · simp only [constAccessorLoop, hc, if_true] at h
        cases hres : g.resolve (n.outputs.getD 0 none) with
        | none => rw [hres] at h; simp [Except.bind] at h
        | some tid =>
          rw [hres] at h
          obtain ⟨e, he, h⟩ := Except_bind_ok h
          obtain ⟨es, hes, h⟩ := Except_bind_ok h
          simp only [Except.ok.injEq] at h he
          subst h
          subst he
          have hres2 := hres
          try simp only [List.getD_eq_getElem?_getD] at hres2
          simp [List.filterMap_cons, hc, hres, hres2, ih hes]
      · simp only [constAccessorLoop, hc, if_false] at h
        simpa [List.filterMap_cons, hc] using ih h

theorem call_all_const_node_accessors_ok {g : Graph} {evs : List Event}
    (h : call_all_const_node_accessors g = Except.ok evs) :
    evs = specConstAccessorEvents g := by
  simpa [specConstAccessorEvents] using constAccessorLoop_ok h

theorem mem_specSlotEvents {g : Graph} {ss : List (Option Nat)} {e : Event}
    (h : e ∈ specSlotEvents g ss) : ∃ tid, e = Event.allocate tid := by
  simp only [specSlotEvents, List.mem_filterMap] at h
  obtain ⟨s, _, hs⟩ := h
  cases hx : Option.bind s g.tensorOf with
  | none => rw [hx] at hs; simp at hs
  | some t =>
    rw [hx] at hs
    by_cases hb : t.boundEdges = []
    · simp [hb] at hs
    · simp [hb] at hs
      exact ⟨t.tid, hs.symm⟩

theorem mem_specConstAllocEvents {g : Graph} {e : Event}
    (h : e ∈ specConstAllocEvents g) : ∃ tid, e = Event.allocate tid := by
  simp only [specConstAllocEvents, List.mem_flatten, List.mem_map] at h
  obtain ⟨l, ⟨onode, _, hl⟩, hel⟩ := h
  cases onode with
  | none => subst hl; simp at hel
  | some n => subst hl; exact mem_specSlotEvents hel

theorem mem_specConstAccessorEvents {g : Graph} {e : Event}
    (h : e ∈ specConstAccessorEvents g) : ∃ tid, e = Event.accessor tid := by
  simp only [specConstAccessorEvents, List.mem_filterMap] at h
  obtain ⟨onode, _, hs⟩ := h
  cases onode with
  | none => simp at hs
  | some n =>
    by_cases hc : n.ntype = NodeType.Const
    · simp only [hc, Option.some_bind, if_true] at hs
      cases hres : g.resolve (n.outputs.getD 0 none) with
      | none => rw [hres] at hs; simp at hs
      | some tid =>
        rw [hres] at hs
        simp at hs
        exact ⟨tid, hs.symm⟩
    · simp [hc] at hs

theorem mem_release_unused {g : Graph} {e : Event}
    (h : e ∈ release_unused_tensors g) : ∃ tid, e = Event.release tid := by
  simp only [release_unused_tensors, List.mem_filterMap] at h
  obtain ⟨ot, _, hs⟩ := h
  cases ot with
  | none => simp at hs
  | some t =>
    by_cases hh : t.hasHandle <;> by_cases hb : t.boundEdges = [] <;>
      simp [hh, hb] at hs
    exact ⟨t.tid, hs.symm⟩

theorem release_unused_mem_iff (g : Graph) (tid : Nat) :
    Event.release tid ∈ release_unused_tensors g ↔
      ∃ t : Tensor, some t ∈ g.tensors ∧ t.hasHandle = true ∧ t.boundEdges = [] ∧
        t.tid = tid := by
  simp only [release_unused_tensors, List.mem_filterMap]
  constructor
  · rintro ⟨ot, hot, hs⟩
    cases ot with
    | none => simp at hs
    | some t =>
      by_cases hh : t.hasHandle <;> by_cases hb : t.boundEdges = [] <;>
        simp [hh, hb] at hs
      exact ⟨t, hot, hh, hb, hs⟩
  · rintro ⟨t, hmem, hh, hb, htid⟩
    exact ⟨some t, hmem, by simp [hh, hb, htid]⟩

theorem mem_allocate_all_tensors {g : Graph} {e : Event}
    (h : e ∈ allocate_all_tensors g) : ∃ tid, e = Event.allocate tid := by
  simp only [allocate_all_tensors, List.mem_filterMap] at h
  obtain ⟨ot, _, hs⟩ := h
  cases ot with
  | none => simp at hs
  | some t =>
    by_cases hb : t.boundEdges = [] <;> by_cases hh : t.hasHandle <;>
      by_cases hr : t.resizable <;> by_cases hu : t.used <;>
      simp [hb, hh, hr, hu] at hs <;>
      exact ⟨t.tid, hs.symm⟩

theorem mem_mmSetupEvents {ctx : GraphContext} {g : Graph} {e : Event}
    (h : e ∈ mmSetupEvents ctx g) : ∃ tid, e = Event.allocate tid := by
  unfold mmSetupEvents at h
  by_cases hmm : ctx.useTransitionMM
  · simp [hmm] at h
  · rw [if_neg hmm] at h
    exact mem_allocate_all_tensors h

theorem prepare_events_shape (t : ExecutionTask) :
    ∀ e ∈ t.prepare, e = Event.prepareTask t.node := by
  intro e he
  unfold ExecutionTask.prepare at he
  cases ht : t.task with
  | none => rw [ht] at he; simp at he
  | some f =>
    rw [ht] at he
    by_cases hp : f.hasPrep
    · simp [hp] at he; exact he
    · simp [hp] at he

theorem prepare_noop_of_no_behavior (t : ExecutionTask)
    (h : hasPrepBehavior t = false) : t.prepare = [] := by
  unfold hasPrepBehavior at h
  unfold ExecutionTask.prepare
  cases ht : t.task with
  | none => rfl
  | some f =>
    rw [ht] at h
    simp at h
    simp [h]

theorem prepareLoop_eq_spec (g : Graph) :
    ∀ ts : List ExecutionTask, prepareLoop g ts = specPrepareEvents g ts := by
  intro ts
  induction ts with
  | nil => rfl
  | cons t rest ih =>
    simp [prepareLoop, specPrepareEvents, List.flatten_cons, List.append_assoc, ih]

theorem mem_prepareLoop {g : Graph} {ts : List ExecutionTask} {e : Event}
    (h : e ∈ prepareLoop g ts) :
    (∃ nid, e = Event.prepareTask nid) ∨ (∃ tid, e = Event.release tid) := by
  induction ts with
  | nil => simp [prepareLoop] at h
  | cons t rest ih =>
    rw [prepareLoop] at h
    rcases List.mem_append.mp h with h1 | h2
    · rcases List.mem_append.mp h1 with h3 | h4
      · exact Or.inl ⟨t.node, prepare_events_shape t e h3⟩
      · exact Or.inr (mem_release_unused h4)
    · exact ih h2

theorem mem_groupAcquires {ctx : GraphContext} {e : Event}
    (h : e ∈ groupAcquires ctx) : ∃ t, e = Event.acquireGroup t := by
  simp only [groupAcquires, List.mem_filterMap] at h
  obtain ⟨p, _, hp⟩ := h
  by_cases h2 : p.2 <;> simp [h2] at hp
  exact ⟨p.1, hp.symm⟩

theorem mem_groupReleases {ctx : GraphContext} {e : Event}
    (h : e ∈ groupReleases ctx) : ∃ t, e = Event.releaseGroup t := by
  simp only [groupReleases, List.mem_filterMap] at h
  obtain ⟨p, _, hp⟩ := h
  by_cases h2 : p.2 <;> simp [h2] at hp
  exact ⟨p.1, hp.symm⟩

theorem mem_taskRuns {ts : List ExecutionTask} {e : Event}
    (h : e ∈ taskRuns ts) : ∃ nid, e = Event.runTask nid := by
  simp only [taskRuns, List.mem_filterMap] at h
  obtain ⟨t, _, ht⟩ := h
  cases hf : t.task with
  | none => rw [hf] at ht; simp at ht
  | some f => rw [hf] at ht; simp at ht; exact ⟨t.node, ht.symm⟩

theorem mem_inputAcc {w : Workload} {e : Event}
    (h : e ∈ call_all_input_node_accessors w) : ∃ tid, e = Event.accessor tid := by
  simp only [call_all_input_node_accessors, List.mem_filterMap] at h
  obtain ⟨s, _, hs⟩ := h
  cases s with
  | none => simp at hs
  | some tid => simp at hs; exact ⟨tid, hs.symm⟩

theorem mem_outputAcc {w : Workload} {e : Event}
    (h : e ∈ call_all_output_node_accessors w) : ∃ tid, e = Event.accessor tid := by
  simp only [call_all_output_node_accessors, List.mem_filterMap] at h
  obtain ⟨s, _, hs⟩ := h
  cases s with
  | none => simp at hs
  | some tid => simp at hs; exact ⟨tid, hs.symm⟩

theorem finalize_graph_entry_some {env : Env} {mgr : GraphManager} {g : Graph}
    {ctx : GraphContext} {tgt : Target} {w0 : Workload}
    (h0 : mgr.workloads g.gid = some w0) :
    finalize_graph env mgr g ctx tgt = Except.error GError.alreadyRegistered := by
  unfold finalize_graph
  rw [h0]

theorem finalize_graph_entry_none {env : Env} {mgr : GraphManager} {g : Graph}
    {ctx : GraphContext} {tgt : Target}
    (h0 : mgr.workloads g.gid = none) :
    finalize_graph env mgr g ctx tgt = finalizeBody env mgr g ctx tgt := by
  unfold finalize_graph
  rw [h0]

/-- Full characterization of a successful finalize run: the workload is
registered under the graph id, its task list is non-empty, and the event
trace is const-step allocations, then const accessors, then (CL only)
the preparation pass, then the tensor-memory setup, then (non-CL only)
one full execution followed by the unused-tensor release sweep. -/
theorem finalize_ok_trace
    {env : Env} {mgr : GraphManager} {g : Graph} {ctx : GraphContext} {tgt : Target}
    {mgr1 : GraphManager} {ev : List Event} {g2 : Graph} {w : Workload}
    {evA evC : List Event}
    (h : finalize_graph env mgr g ctx tgt = Except.ok (mgr1, ev))
    (h1 : configure_all_tensors env (forceTargetToGraph g (forcedTarget env tgt)) = Except.ok g2)
    (hcn : configure_all_nodes env (env.passes g2) ctx = Except.ok w)
    (hA : allocate_const_tensors (env.passes g2) = Except.ok evA)
    (hC : call_all_const_node_accessors (env.passes g2) = Except.ok evC) :
    mgr1.workloads g.gid = some w ∧
    w.tasks ≠ [] ∧
    ev = evA ++ evC ++
      (if forcedTarget env tgt = Target.CL then prepare_all_tasks (env.passes g2) w else []) ++
      mmSetupEvents ctx (env.passes g2) ++
      (if forcedTarget env tgt = Target.CL then []
       else (call_all_input_node_accessors w ++ call_all_tasks w ++
             call_all_output_node_accessors w) ++ release_unused_tensors (env.passes g2)) := by
  cases hreg : mgr.workloads g.gid with
  | some w0 => rw [finalize_graph_entry_some hreg] at h; exact Except.noConfusion h
  | none =>
    rw [finalize_graph_entry_none hreg] at h
    unfold finalizeBody at h
    obtain ⟨g2x, hg2x, h⟩ := Except_bind_ok h
    rw [h1] at hg2x
    injection hg2x with hg
    subst hg
    obtain ⟨u, hu, h⟩ := Except_bind_ok h
    obtain ⟨wx, hwx, h⟩ := Except_bind_ok h
    rw [hcn] at hwx
    injection hwx with hw
    subst hw
    by_cases hemp : w.tasks.isEmpty
    · rw [if_pos hemp] at h; exact Except.noConfusion h
    · rw [if_neg hemp] at h
      obtain ⟨evAx, hAx, h⟩ := Except_bind_ok h
      rw [hA] at hAx
      injection hAx with hA2
      subst hA2
      obtain ⟨evCx, hCx, h⟩ := Except_bind_ok h
      rw [hC] at hCx
      injection hCx with hC2
      subst hC2
      obtain ⟨hm, he⟩ := finalizeFinish_ok h
      subst hm
      refine ⟨by simp, fun hnil => hemp (by simp [hnil]), ?_⟩
      simpa [mmSetupEvents] using he

/-! ## Claims -/

/-- C1: `execute` on a finalized (registered) workload performs exactly
this sequence: input-tensor accessors, then acquisition of every
configured transition memory group, then every task in workload order,
then release of every group, then output-tensor accessors; for a
workload with zero tasks the acquire/release bracket still occurs and no
task-run event appears. -/
theorem execute_performs_input_acquire_run_release_output_sequence
    (mgr : GraphManager) (g : Graph) (w : Workload)
    (h : mgr.workloads g.gid = some w) :
    execute_graph mgr g =
      Except.ok (call_all_input_node_accessors w ++
        (groupAcquires w.ctx ++ taskRuns w.tasks ++ groupReleases w.ctx) ++
        call_all_output_node_accessors w) ∧
    (w.tasks = [] →
      execute_graph mgr g =
        Except.ok (call_all_input_node_accessors w ++
          (groupAcquires w.ctx ++ groupReleases w.ctx) ++
          call_all_output_node_accessors w) ∧
      (call_all_input_node_accessors w ++ (groupAcquires w.ctx ++ groupReleases w.ctx) ++
        call_all_output_node_accessors w).filter isRunTask = []) := by
  constructor
  · simp [execute_graph, h, call_all_tasks]
  · intro hz
    constructor
    · simp [execute_graph, h, call_all_tasks, hz, taskRuns]
    · rw [List.filter_eq_nil_iff]
      intro e he
      rcases List.mem_append.mp he with h1 | h2
      · rcases List.mem_append.mp h1 with h3 | h4
        · obtain ⟨tid, rfl⟩ := mem_inputAcc h3
          simp [isRunTask]
        · rcases List.mem_append.mp h4 with h5 | h6
          · obtain ⟨t0, rfl⟩ := mem_groupAcquires h5
            simp [isRunTask]
          · obtain ⟨t0, rfl⟩ := mem_groupReleases h6
            simp [isRunTask]
      · obtain ⟨tid, rfl⟩ := mem_outputAcc h2
        simp [isRunTask]

/-- Witness for C1: the zero-task workload `wZ` registered under id 0
still brackets the acquire/release pair with no task run. -/
theorem execute_sequence_witness :
    execute_graph mgrZ graph1 =
      Except.ok (call_all_input_node_accessors wZ ++
        (groupAcquires wZ.ctx ++ groupReleases wZ.ctx) ++
        call_all_output_node_accessors wZ) ∧
    (call_all_input_node_accessors wZ ++ (groupAcquires wZ.ctx ++ groupReleases wZ.ctx) ++
      call_all_output_node_accessors wZ).filter isRunTask = [] :=
  (execute_performs_input_acquire_run_release_output_sequence mgrZ graph1 wZ rfl).2 rfl

/-- C2: a compiled workload has exactly one task per node whose backend
`configure_node` returned a non-null function, in node-container order;
null nodes and nodes whose configure returned null contribute none. -/
theorem workload_tasks_one_per_configured_node
    (env : Env) (g : Graph) (ctx : GraphContext) (w : Workload)
    (h : configure_all_nodes env g ctx = Except.ok w) :
    w.tasks = specTasks env ctx g.nodes ∧
    w.tasks.length = g.nodes.countP (nodeYieldsTask env ctx) := by
  obtain ⟨hb, _, _, _, _⟩ := configure_all_nodes_ok h
  have hts := buildTasks_eq_specTasks env ctx hb
  exact ⟨hts, by rw [hts, specTasks_length]⟩

/-- Witness for C2 at `graphF` (one compute node yields one task). -/
theorem workload_tasks_witness :
    wF.tasks = specTasks envCL ctx1 graphF.nodes ∧
    wF.tasks.length = graphF.nodes.countP (nodeYieldsTask envCL ctx1) :=
  workload_tasks_one_per_configured_node envCL graphF ctx1 wF rfl

/-- C3: the compiled workload's input list is every `Input` node's sole
output tensor and its output list every `Output` node's sole input
tensor, each in the nodes' encounter order in the graph's node list. -/
theorem workload_inputs_outputs_encounter_order
    (env : Env) (g : Graph) (ctx : GraphContext) (w : Workload)
    (h : configure_all_nodes env g ctx = Except.ok w) :
    w.inputs = specInputs g g.nodes ∧ w.outputs = specOutputs g g.nodes := by
  obtain ⟨_, hi, ho, _, _⟩ := configure_all_nodes_ok h
  exact ⟨hi.trans (workloadInputs_eq_specInputs g g.nodes),
         ho.trans (workloadOutputs_eq_specOutputs g g.nodes)⟩

/-- Witness for C3 at `graphF`. -/
theorem workload_inputs_outputs_witness :
    wF.inputs = specInputs graphF graphF.nodes ∧
    wF.outputs = specOutputs graphF graphF.nodes :=
  workload_inputs_outputs_encounter_order envCL graphF ctx1 wF rfl

theorem finalizeBody_ok_mgr {env : Env} {mgr : GraphManager} {g : Graph}
    {ctx : GraphContext} {tgt : Target} {mgr1 : GraphManager} {ev : List Event}
    (h : finalizeBody env mgr g ctx tgt = Except.ok (mgr1, ev)) :
    ∃ w, mgr1 = GraphManager.mk (fun k => if k = g.gid then some w else mgr.workloads k) := by
  unfold finalizeBody at h
  obtain ⟨g2, hg2, h⟩ := Except_bind_ok h
  obtain ⟨u, hu, h⟩ := Except_bind_ok h
  obtain ⟨w, hw, h⟩ := Except_bind_ok h
  by_cases hemp : w.tasks.isEmpty
  · rw [if_pos hemp] at h; exact Except.noConfusion h
  · rw [if_neg hemp] at h
    obtain ⟨evA, hA, h⟩ := Except_bind_ok h
    obtain ⟨evC, hC, h⟩ := Except_bind_ok h
    exact ⟨w, (finalizeFinish_ok h).1⟩

/-- C7: once a finalize for a graph id succeeds, the workload is
registered under that id, and any second finalize with the same id
(without an intervening invalidate) fails with the
duplicate-registration error while leaving the first registration in
place. -/
theorem finalize_duplicate_registration_rejected
    (env env2 : Env) (mgr : GraphManager) (g : Graph) (ctx ctx2 : GraphContext)
    (tgt tgt2 : Target) (mgr1 : GraphManager) (ev : List Event)
    (h : finalize_graph env mgr g ctx tgt = Except.ok (mgr1, ev)) :
    (mgr1.workloads g.gid).isSome = true ∧
    finalize_graph env2 mgr1 g ctx2 tgt2 = Except.error GError.alreadyRegistered := by
  unfold finalize_graph at h
  split at h
  · exact Except.noConfusion h
  · obtain ⟨w, hm⟩ := finalizeBody_ok_mgr h
    subst hm
    refine ⟨by simp, ?_⟩
    unfold finalize_graph
    simp

/-- Witness for C7: finalizing `graph1` on CL succeeds and a second
finalize of the same id is rejected. -/
theorem finalize_duplicate_registration_witness :
    (mgrA.workloads graph1.gid).isSome = true ∧
    finalize_graph envCL mgrA graph1 ctx1 Target.CL = Except.error GError.alreadyRegistered :=
  finalize_duplicate_registration_rejected envCL envCL mgr0 graph1 ctx1 ctx1
    Target.CL Target.CL mgrA evFinA rfl

/-- C8: `execute` on an id that is not currently registered fails with
the unknown-graph error, as does `invalidate`; `invalidate` on a
registered id removes the table entry, after which `execute` fails with
the same unknown-graph error. -/
theorem execute_invalidate_unknown_graph_errors
    (mgr mgr2 : GraphManager) (g : Graph) (w : Workload)
    (h1 : mgr.workloads g.gid = none) (h2 : mgr2.workloads g.gid = some w) :
    execute_graph mgr g = Except.error GError.notRegistered ∧
    invalidate_graph mgr g = Except.error GError.notRegistered ∧
    invalidate_graph mgr2 g = Except.ok (eraseWorkload mgr2 g.gid) ∧
    (eraseWorkload mgr2 g.gid).workloads g.gid = none ∧
    execute_graph (eraseWorkload mgr2 g.gid) g = Except.error GError.notRegistered := by
  refine ⟨?_, ?_, ?_, ?_, ?_⟩ <;>
    simp [execute_graph, invalidate_graph, eraseWorkload, h1, h2]

/-- Witness for C8 at the empty manager and the manager that holds
`graph1`'s workload. -/
theorem execute_invalidate_unknown_graph_witness :
    execute_graph mgr0 graph1 = Except.error GError.notRegistered ∧
    invalidate_graph mgr0 graph1 = Except.error GError.notRegistered ∧
    invalidate_graph mgrA graph1 = Except.ok (eraseWorkload mgrA graph1.gid) ∧
    (eraseWorkload mgrA graph1.gid).workloads graph1.gid = none ∧
    execute_graph (eraseWorkload mgrA graph1.gid) graph1 = Except.error GError.notRegistered :=
  execute_invalidate_unknown_graph_errors mgr0 mgrA graph1 wA rfl rfl

/-- C10: when node compilation yields an empty task list (no backend
returned a function), finalize fails with a fatal error, so a zero-task
workload is never registered. -/
theorem finalize_rejects_empty_task_list
    (env : Env) (mgr : GraphManager) (g : Graph) (ctx : GraphContext) (tgt : Target)
    (g2 : Graph) (w : Workload)
    (h0 : mgr.workloads g.gid = none)
    (h1 : configure_all_tensors env (forceTargetToGraph g (forcedTarget env tgt)) = Except.ok g2)
    (h2 : validate_all_nodes env (env.passes g2).nodes = Except.ok ())
    (h3 : configure_all_nodes env (env.passes g2) ctx = Except.ok w)
    (h4 : w.tasks = []) :
    finalize_graph env mgr g ctx tgt = Except.error GError.noTasks := by
  simp [finalize_graph, finalizeBody, Except.bind, h0, h1, h2, h3, h4]

/-- Witness for C10: a graph whose backend compiles no node into a
function is rejected by finalize. -/
theorem finalize_rejects_empty_task_list_witness :
    finalize_graph envNoTask mgr0 graph1 ctx1 Target.CL = Except.error GError.noTasks :=
  finalize_rejects_empty_task_list envNoTask mgr0 graph1 ctx1 Target.CL g2c wc
    rfl rfl rfl rfl rfl

theorem trace_prefix_decomp (a b P M E : List Event) :
    a ++ b ++ P ++ M ++ E = a ++ b ++ (a ++ b ++ P ++ M ++ E).drop (a.length + b.length) := by
  have h1 : a ++ b ++ P ++ M ++ E = (a ++ b) ++ (P ++ M ++ E) := by
    simp [List.append_assoc]
  rw [h1, ← List.length_append a b, List.drop_left]

/-- C4 (counterexample): the const-allocation step is not limited to the
tensors of constant and input nodes.  On `graph1H` (`Input -> Compute ->
Output`) it also allocates tensor 1, the Compute node's output consumed
by the Output node, which belongs to no `Const`/`Input` node. -/
theorem const_allocation_not_only_const_input_counterexample :
    allocate_const_tensors graph1H = Except.ok [Event.allocate 0, Event.allocate 1] ∧
    Event.allocate 1 ∈ [Event.allocate 0, Event.allocate 1] ∧
    constInputTensorIds graph1H = [0] ∧
    1 ∉ constInputTensorIds graph1H :=
  ⟨rfl, by decide, by decide, by decide⟩

/-- C4 (amended): at the const-allocation step, finalization allocates
exactly the output tensors of `Const`/`Input` nodes and the input
tensors of `Output` nodes (each non-null with a non-empty bound-edge
set), and afterwards the data-population accessor is invoked on every
constant node's sole output tensor, all before any task-run event — the
two segments form a task-run-free prefix of the finalize trace. -/
theorem const_allocation_step_and_accessors_before_tasks
    (env : Env) (mgr : GraphManager) (g : Graph) (ctx : GraphContext) (tgt : Target)
    (mgr1 : GraphManager) (ev : List Event) (g2 : Graph) (w : Workload)
    (evA evC : List Event)
    (h : finalize_graph env mgr g ctx tgt = Except.ok (mgr1, ev))
    (h1 : configure_all_tensors env (forceTargetToGraph g (forcedTarget env tgt)) = Except.ok g2)
    (hcn : configure_all_nodes env (env.passes g2) ctx = Except.ok w)
    (hA : allocate_const_tensors (env.passes g2) = Except.ok evA)
    (hC : call_all_const_node_accessors (env.passes g2) = Except.ok evC) :
    evA = specConstAllocEvents (env.passes g2) ∧
    evC = specConstAccessorEvents (env.passes g2) ∧
    ev = evA ++ evC ++ ev.drop (evA.length + evC.length) ∧
    (evA ++ evC).filter isRunTask = [] := by
  obtain ⟨hreg, hne, hev⟩ := finalize_ok_trace h h1 hcn hA hC
  refine ⟨allocate_const_tensors_ok hA, call_all_const_node_accessors_ok hC, ?_, ?_⟩
  · rw [hev]
    exact trace_prefix_decomp evA evC _ _ _
  · rw [List.filter_eq_nil_iff]
    intro e he
    rcases List.mem_append.mp he with h1m | h2m
    · have heA : e ∈ specConstAllocEvents (env.passes g2) := by
        rw [← allocate_const_tensors_ok hA]; exact h1m
      obtain ⟨tid, rfl⟩ := mem_specConstAllocEvents heA
      simp [isRunTask]
    · have heC : e ∈ specConstAccessorEvents (env.passes g2) := by
        rw [← call_all_const_node_accessors_ok hC]; exact h2m
      obtain ⟨tid, rfl⟩ := mem_specConstAccessorEvents heC
      simp [isRunTask]

/-- Witness for C4 (amended), at the CL finalize of `graph9`. -/
theorem const_allocation_step_witness :
    evA9 = specConstAllocEvents (envCL.passes g29) ∧
    evC9 = specConstAccessorEvents (envCL.passes g29) ∧
    ev9 = evA9 ++ evC9 ++ ev9.drop (evA9.length + evC9.length) ∧
    (evA9 ++ evC9).filter isRunTask = [] :=
  const_allocation_step_and_accessors_before_tasks envCL mgr0 graph9 ctx1 Target.CL
    mgr9 ev9 g29 w9 evA9 evC9 rfl rfl rfl rfl rfl

/-- C5: when the effective target is not the queued-execution (CL)
target, finalize registers the workload and then immediately executes
the graph once — the trace ends with a full execute sequence (input
accessors, memory-group bracket around the tasks, output accessors)
followed by the unused-tensor release sweep, so outputs are populated
before finalize returns; on the CL target no task-run event occurs
inside finalize. -/
theorem finalize_eager_execution_policy
    (env : Env) (mgr : GraphManager) (g : Graph) (ctx : GraphContext) (tgt : Target)
    (mgr1 : GraphManager) (ev : List Event) (g2 : Graph) (w : Workload)
    (evA evC : List Event)
    (h : finalize_graph env mgr g ctx tgt = Except.ok (mgr1, ev))
    (h1 : configure_all_tensors env (forceTargetToGraph g (forcedTarget env tgt)) = Except.ok g2)
    (hcn : configure_all_nodes env (env.passes g2) ctx = Except.ok w)
    (hA : allocate_const_tensors (env.passes g2) = Except.ok evA)
    (hC : call_all_const_node_accessors (env.passes g2) = Except.ok evC) :
    (forcedTarget env tgt ≠ Target.CL →
      mgr1.workloads g.gid = some w ∧
      ev = evA ++ evC ++ mmSetupEvents ctx (env.passes g2) ++
        (call_all_input_node_accessors w ++ call_all_tasks w ++
         call_all_output_node_accessors w) ++ release_unused_tensors (env.passes g2) ∧
      release_unused_tensors (env.passes g2) ⊆ ev) ∧
    (forcedTarget env tgt = Target.CL → ev.filter isRunTask = []) := by
  obtain ⟨hreg, hne, hev⟩ := finalize_ok_trace h h1 hcn hA hC
  constructor
  · intro hncl
    simp only [if_neg hncl] at hev
    refine ⟨hreg, ?_, ?_⟩
    · rw [hev]; simp [List.append_assoc]
    · intro e he
      rw [hev]
      simp only [List.mem_append]
      tauto
  · intro hcl
    simp only [if_pos hcl] at hev
    rw [hev, List.filter_eq_nil_iff]
    intro e he
    simp only [List.append_nil, List.mem_append] at he
    rcases he with ((heA | heC) | heP) | heM
    · have h2 : e ∈ specConstAllocEvents (env.passes g2) := by
        rw [← allocate_const_tensors_ok hA]; exact heA
      obtain ⟨tid, rfl⟩ := mem_specConstAllocEvents h2
      simp [isRunTask]
    · have h2 : e ∈ specConstAccessorEvents (env.passes g2) := by
        rw [← call_all_const_node_accessors_ok hC]; exact heC
      obtain ⟨tid, rfl⟩ := mem_specConstAccessorEvents h2
      simp [isRunTask]
    · unfold prepare_all_tasks at heP
      rcases mem_prepareLoop heP with ⟨nid, rfl⟩ | ⟨tid, rfl⟩ <;> simp [isRunTask]
    · obtain ⟨tid, rfl⟩ := mem_mmSetupEvents heM
      simp [isRunTask]

/-- Witness for C5: the NEON finalize of `graph1` executes eagerly, and
the CL finalize of `graph1` runs no task. -/
theorem finalize_eager_execution_witness :
    (mgrN.workloads graph1.gid = some wN ∧
     evN = evAN ++ evCN ++ mmSetupEvents ctx1 (envNEON.passes g2N) ++
       (call_all_input_node_accessors wN ++ call_all_tasks wN ++
        call_all_output_node_accessors wN) ++ release_unused_tensors (envNEON.passes g2N) ∧
     release_unused_tensors (envNEON.passes g2N) ⊆ evN) ∧
    evFinA.filter isRunTask = [] :=
  ⟨(finalize_eager_execution_policy envNEON mgr0 graph1 ctx1 Target.NEON
      mgrN evN g2N wN evAN evCN rfl rfl rfl rfl rfl).1 (by decide),
   (finalize_eager_execution_policy envCL mgr0 graph1 ctx1 Target.CL
      mgrA evFinA g2A wA evAA evCA rfl rfl rfl rfl rfl).2 (by decide)⟩

/-- C6: on the CL target (the one requiring a one-time hardware
preparation pass), finalize runs the preparation pass right after the
const-accessor step: every task's `prepare()` in workload order, each
followed by a sweep releasing the storage of every tensor whose
bound-edge set is empty; `prepare()` of a task whose function defines no
preparation behaviour contributes no event. -/
theorem finalize_prepare_pass_on_CL
    (env : Env) (mgr : GraphManager) (g : Graph) (ctx : GraphContext) (tgt : Target)
    (mgr1 : GraphManager) (ev : List Event) (g2 : Graph) (w : Workload)
    (evA evC : List Event)
    (h : finalize_graph env mgr g ctx tgt = Except.ok (mgr1, ev))
    (h1 : configure_all_tensors env (forceTargetToGraph g (forcedTarget env tgt)) = Except.ok g2)
    (hcn : configure_all_nodes env (env.passes g2) ctx = Except.ok w)
    (hA : allocate_const_tensors (env.passes g2) = Except.ok evA)
    (hC : call_all_const_node_accessors (env.passes g2) = Except.ok evC)
    (hcl : forcedTarget env tgt = Target.CL) :
    ev = evA ++ evC ++ prepare_all_tasks (env.passes g2) w ++
      mmSetupEvents ctx (env.passes g2) ∧
    prepare_all_tasks (env.passes g2) w = specPrepareEvents (env.passes g2) w.tasks ∧
    ((w.tasks.filter (fun t => !hasPrepBehavior t)).map ExecutionTask.prepare).flatten = [] := by
  obtain ⟨hreg, hne, hev⟩ := finalize_ok_trace h h1 hcn hA hC
  simp only [if_pos hcl] at hev
  refine ⟨by rw [hev]; simp, ?_, ?_⟩
  · exact prepareLoop_eq_spec (env.passes g2) w.tasks
  · rw [List.flatten_eq_nil_iff]
    intro l hl
    rw [List.mem_map] at hl
    obtain ⟨t, ht, rfl⟩ := hl
    exact prepare_noop_of_no_behavior t (by simpa using (List.mem_filter.mp ht).2)

/-- Witness for C6 at the CL finalize of `graph1`. -/
theorem finalize_prepare_pass_witness :
    evFinA = evAA ++ evCA ++ prepare_all_tasks (envCL.passes g2A) wA ++
      mmSetupEvents ctx1 (envCL.passes g2A) ∧
    prepare_all_tasks (envCL.passes g2A) wA = specPrepareEvents (envCL.passes g2A) wA.tasks ∧
    ((wA.tasks.filter (fun t => !hasPrepBehavior t)).map ExecutionTask.prepare).flatten = [] :=
  finalize_prepare_pass_on_CL envCL mgr0 graph1 ctx1 Target.CL
    mgrA evFinA g2A wA evAA evCA rfl rfl rfl rfl rfl rfl

/-- C9 (counterexample): a constant tensor's accessor CAN be invoked
again by a subsequent execute.  In `graph9` the Const node's output
(tensor 0) is the Output node's sole input, so it lands in the
workload's output list: its accessor runs once at finalize time and then
again on every execute. -/
theorem const_accessor_reinvoked_by_execute_counterexample :
    finalize_graph envCL mgr0 graph9 ctx1 Target.CL = Except.ok (mgr9, ev9) ∧
    execute_graph mgr9 graph9 = Except.ok tr9 ∧
    constOutputTensorIds graph9 = [0] ∧
    Event.accessor 0 ∈ ev9 ∧
    Event.accessor 0 ∈ tr9 :=
  ⟨rfl, rfl, by decide, by decide, by decide⟩

/-- C9 (amended): every constant node's accessor is invoked exactly once
during finalization, at the const-accessor step (after node compilation,
before the preparation pass or any execution: the preceding segment only
allocates); a subsequent execute invokes exactly the accessors of the
workload's input and output tensor lists, so a constant tensor's
accessor is invoked again only when that tensor appears in one of those
lists (e.g. a Const output feeding an Output node directly). -/
theorem const_accessor_once_and_execute_touches_io_only
    (env : Env) (mgr : GraphManager) (g : Graph) (ctx : GraphContext) (tgt : Target)
    (mgr1 : GraphManager) (ev : List Event) (g2 : Graph) (w : Workload)
    (evA evC tr : List Event)
    (h : finalize_graph env mgr g ctx tgt = Except.ok (mgr1, ev))
    (h1 : configure_all_tensors env (forceTargetToGraph g (forcedTarget env tgt)) = Except.ok g2)
    (hcn : configure_all_nodes env (env.passes g2) ctx = Except.ok w)
    (hA : allocate_const_tensors (env.passes g2) = Except.ok evA)
    (hC : call_all_const_node_accessors (env.passes g2) = Except.ok evC)
    (hx : execute_graph mgr1 g = Except.ok tr) :
    evC = specConstAccessorEvents (env.passes g2) ∧
    ev = evA ++ evC ++ ev.drop (evA.length + evC.length) ∧
    evA.filter isAccessor = [] ∧
    tr.filter isAccessor =
      call_all_input_node_accessors w ++ call_all_output_node_accessors w := by
  obtain ⟨hreg, hne, hev⟩ := finalize_ok_trace h h1 hcn hA hC
  refine ⟨call_all_const_node_accessors_ok hC, ?_, ?_, ?_⟩
  · rw [hev]
    exact trace_prefix_decomp evA evC _ _ _
  · rw [allocate_const_tensors_ok hA, List.filter_eq_nil_iff]
    intro e he
    obtain ⟨tid, rfl⟩ := mem_specConstAllocEvents he
    simp [isAccessor]
  · simp only [execute_graph, hreg, Except.ok.injEq] at hx
    subst hx
    rw [call_all_tasks]
    simp only [List.filter_append]
    have hin : (call_all_input_node_accessors w).filter isAccessor =
        call_all_input_node_accessors w := by
      rw [List.filter_eq_self]
      intro e he
      obtain ⟨tid, rfl⟩ := mem_inputAcc he
      simp [isAccessor]
    have hout : (call_all_output_node_accessors w).filter isAccessor =
        call_all_output_node_accessors w := by
      rw [List.filter_eq_self]
      intro e he
      obtain ⟨tid, rfl⟩ := mem_outputAcc he
      simp [isAccessor]
    have hacq : (groupAcquires w.ctx).filter isAccessor = [] := by
      rw [List.filter_eq_nil_iff]
      intro e he
      obtain ⟨t0, rfl⟩ := mem_groupAcquires he
      simp [isAccessor]
    have hrel : (groupReleases w.ctx).filter isAccessor = [] := by
      rw [List.filter_eq_nil_iff]
      intro e he
      obtain ⟨t0, rfl⟩ := mem_groupReleases he
      simp [isAccessor]
    have hrun : (taskRuns w.tasks).filter isAccessor = [] := by
      rw [List.filter_eq_nil_iff]
      intro e he
      obtain ⟨nid, rfl⟩ := mem_taskRuns he
      simp [isAccessor]
    rw [hin, hout, hacq, hrel, hrun]
    simp

/-- Witness for C9 (amended), at the CL finalize and execute of `graph9`. -/
theorem const_accessor_once_witness :
    evC9 = specConstAccessorEvents (envCL.passes g29) ∧
    ev9 = evA9 ++ evC9 ++ ev9.drop (evA9.length + evC9.length) ∧
    evA9.filter isAccessor = [] ∧
    tr9.filter isAccessor =
      call_all_input_node_accessors w9 ++ call_all_output_node_accessors w9 :=
  const_accessor_once_and_execute_touches_io_only envCL mgr0 graph9 ctx1 Target.CL
    mgr9 ev9 g29 w9 evA9 evC9 tr9 rfl rfl rfl rfl rfl rfl

end ACLGraph
